import Mathlib

/-!
Shallow embedding of the concurrent seat-booking system
(`backend/app`): the `events` and `bookings` tables with their
constraints, the optimistic-locking reservation engine
(`services/booking_service.py`), the booking route
(`api/routes/bookings.py` with the `schemas/booking.py` validation),
and the Redis admission gate (`services/admission_service.py`).

Each SQL statement executed by the service is modelled as one atomic
function on an explicit database state.  Interference by concurrent
transactions is modelled by an environment function applied at the
`await` boundaries between statements; a small-step transition system
over the same atomic statements captures arbitrary interleavings of
concurrent `book_seats` calls.
-/

deriving instance DecidableEq for Except

namespace BookingSystem

/-- Status column of a booking row (`bookings.status`); the check
constraint in `models/booking.py` restricts it to these two values. -/
inductive BookingStatus
  | confirmed
  | cancelled
deriving DecidableEq, Repr

/-- A row of the `events` table (`models/event.py`): total capacity
`seat_count`, remaining capacity `available_seats`, and the optimistic
locking `version` counter. -/
structure Event where
  seat_count : Int
  available_seats : Int
  version : Nat
deriving DecidableEq, Repr

/-- A row of the `bookings` table (`models/booking.py`). -/
structure Booking where
  id : Nat
  user_id : Nat
  event_id : Nat
  seat_count : Int
  status : BookingStatus
deriving DecidableEq, Repr

/-- The relational store: the `events` table as an association list
keyed by event id, the `bookings` table, and the auto-increment
primary-key counter for bookings. -/
structure DB where
  events : List (Nat × Event)
  bookings : List Booking
  nextBookingId : Nat
deriving DecidableEq, Repr

/-- Point read of an event row by id
(`select(Event).where(Event.id == event_id)`). -/
def lookupEvent (db : DB) (eid : Nat) : Option Event :=
  (db.events.find? (fun p => p.1 == eid)).map (fun p => p.2)

/-- Replace the event row with the given id (the write half of an
`UPDATE events ... WHERE id = :eid` statement). -/
def setEvent (db : DB) (eid : Nat) (ev : Event) : DB :=
  { db with events := db.events.map (fun p => if p.1 == eid then (p.1, ev) else p) }

/-- The atomic conditional update issued by `book_seats` (lines
98-109 of `booking_service.py`):
`UPDATE events SET available_seats = available_seats - q, version = version + 1
 WHERE id = :eid AND version = :obsV AND available_seats >= :q`.
Returns the updated store and the number of rows affected. -/
def condUpdate (db : DB) (eid : Nat) (obsV : Nat) (q : Int) : DB × Nat :=
  match lookupEvent db eid with
  | none => (db, 0)
  | some ev =>
      if ev.version = obsV ∧ q ≤ ev.available_seats then
        (setEvent db eid
          { ev with available_seats := ev.available_seats - q, version := ev.version + 1 }, 1)
      else (db, 0)

/-- The seat-restoration update issued by `cancel_booking` (lines
186-193 of `booking_service.py`):
`UPDATE events SET available_seats = available_seats + n, version = version + 1
 WHERE id = :eid` — note the absence of any version condition. -/
def restoreSeats (db : DB) (eid : Nat) (n : Int) : DB :=
  match lookupEvent db eid with
  | none => db
  | some ev =>
      setEvent db eid
        { ev with available_seats := ev.available_seats + n, version := ev.version + 1 }

/-- The duplicate-booking guard query of `book_seats` (lines 60-66):
is there a confirmed booking for this (user, event) pair? -/
def hasConfirmedBooking (db : DB) (user eid : Nat) : Bool :=
  db.bookings.any (fun b =>
    b.user_id == user && b.event_id == eid && b.status == BookingStatus.confirmed)

/-- Does any booking row (of any status) exist for this (user, event)
pair?  This is the predicate enforced by the database-level
`UniqueConstraint("user_id", "event_id")` of `models/booking.py`. -/
def existsBookingPair (db : DB) (user eid : Nat) : Bool :=
  db.bookings.any (fun b => b.user_id == user && b.event_id == eid)

/-- INSERT of a confirmed booking row (`db.add(booking); db.flush()`).
The unconditional unique constraint on (user_id, event_id) makes the
flush raise `IntegrityError` when any row for the pair already exists;
that outcome is `none`. -/
def insertBooking (db : DB) (user eid : Nat) (q : Int) : DB × Option Booking :=
  if existsBookingPair db user eid then (db, none)
  else
    let b : Booking :=
      { id := db.nextBookingId, user_id := user, event_id := eid,
        seat_count := q, status := BookingStatus.confirmed }
    ({ db with bookings := db.bookings ++ [b], nextBookingId := db.nextBookingId + 1 },
      some b)

/-- The rejection kinds raised by `book_seats`: each corresponds to a
distinct `HTTPException` (or, for `integrityError`, to the
database-level unique-constraint violation escaping the service). -/
inductive BookErr
  | duplicateBooking
  | notFound (eid : Nat)
  | insufficientCapacity (requested available : Int)
  | contentionExhausted
  | integrityError
  | internalError
deriving DecidableEq, Repr

/-- Audit record of one executed conditional update: the version that
was observed at read time and the row count the update reported. -/
structure AttemptRec where
  observedVersion : Nat
  rowcount : Nat
deriving DecidableEq, Repr

/-- Interference by concurrent transactions, applied at the `await`
boundaries between the statements of one `book_seats` call; the index
identifies the boundary. -/
abbrev Interference := Nat → DB → DB

/-- The empty schedule: no concurrent transaction runs. -/
def noInterference : Interference := fun _ db => db

/-- `MAX_RETRY_ATTEMPTS` of `booking_service.py` line 46. -/
def MAX_RETRY_ATTEMPTS : Nat := 3

/-- The retry loop of `book_seats` (lines 73-153): at attempt `a`,
read the event (404 if absent), reject immediately when the observed
remaining capacity is below the request, otherwise issue the
conditional decrement keyed on the observed version; on zero rows
affected roll back and retry, failing with `contentionExhausted` once
`a` reaches `MAX_RETRY_ATTEMPTS`; on success insert the confirmed
booking row (an `IntegrityError` at flush aborts the transaction,
undoing this attempt's decrement).  Also returns the list of executed
conditional updates.  The fuel-zero case is the `should not reach
here` 500 guard after the loop. -/
def bookLoop (env : Interference) (user eid : Nat) (q : Int) :
    Nat → Nat → DB → DB × List AttemptRec × Except BookErr Booking
  | 0, _, db => (db, [], Except.error BookErr.internalError)
  | fuel + 1, a, db =>
      let db1 := env (2 * a) db
      match lookupEvent db1 eid with
      | none => (db1, [], Except.error (BookErr.notFound eid))
      | some ev =>
          if ev.available_seats < q then
            (db1, [], Except.error (BookErr.insufficientCapacity q ev.available_seats))
          else
            let obsV := ev.version
            let db2 := env (2 * a + 1) db1
            let res := condUpdate db2 eid obsV q
            if res.2 = 0 then
              if a = MAX_RETRY_ATTEMPTS then
                (res.1, [⟨obsV, 0⟩], Except.error BookErr.contentionExhausted)
              else
                let rest := bookLoop env user eid q fuel (a + 1) res.1
                (rest.1, ⟨obsV, 0⟩ :: rest.2.1, rest.2.2)
            else
              match insertBooking res.1 user eid q with
              | (db4, some b) => (db4, [⟨obsV, 1⟩], Except.ok b)
              | (_, none) => (db2, [⟨obsV, 1⟩], Except.error BookErr.integrityError)

/-- `book_seats(db, user_id, event_id, seat_count)` of
`booking_service.py`: the duplicate-booking guard followed by the
bounded retry loop, starting at attempt 1. -/
def book_seats (env : Interference) (user eid : Nat) (q : Int) (db : DB) :
    DB × List AttemptRec × Except BookErr Booking :=
  if hasConfirmedBooking db user eid then
    (db, [], Except.error BookErr.duplicateBooking)
  else
    bookLoop env user eid q MAX_RETRY_ATTEMPTS 1 db

/-- Rejection kinds raised by `cancel_booking`. -/
inductive CancelErr
  | notFound
  | alreadyCancelled
deriving DecidableEq, Repr

/-- The booking lookup of `cancel_booking` (lines 165-171):
`select(Booking).where(Booking.id == booking_id, Booking.user_id == user_id)`. -/
def findBooking (db : DB) (bid uid : Nat) : Option Booking :=
  db.bookings.find? (fun b => b.id == bid && b.user_id == uid)

/-- Set the status of the booking row with the given id to cancelled
(`booking.status = "cancelled"; db.flush()`). -/
def setBookingCancelled (db : DB) (bid : Nat) : DB :=
  { db with bookings := db.bookings.map (fun b =>
      if b.id == bid then { b with status := BookingStatus.cancelled } else b) }

/-- `cancel_booking(db, booking_id, user_id)` of `booking_service.py`
(lines 156-206): look the booking up, reject if absent or already
cancelled, then restore the seats with the unconditional update and
mark the booking cancelled.  `env` is interference by concurrent
transactions at the `await` boundary between the lookup and the
restoration update. -/
def cancel_booking (env : DB → DB) (db : DB) (bid uid : Nat) :
    DB × Except CancelErr Booking :=
  match findBooking db bid uid with
  | none => (db, Except.error CancelErr.notFound)
  | some b =>
      if b.status = BookingStatus.cancelled then
        (db, Except.error CancelErr.alreadyCancelled)
      else
        let db1 := env db
        let db2 := restoreSeats db1 b.event_id b.seat_count
        let db3 := setBookingCancelled db2 bid
        (db3, Except.ok { b with status := BookingStatus.cancelled })

/-- Gated conditional restoration primitive: add the quantity back and
bump the version only if the version still equals the one observed
earlier; reports the affected row count. -/
def condRestore (db : DB) (eid : Nat) (obsV : Nat) (n : Int) : DB × Nat :=
  match lookupEvent db eid with
  | none => (db, 0)
  | some ev =>
      if ev.version = obsV then
        (setEvent db eid
          { ev with available_seats := ev.available_seats + n, version := ev.version + 1 }, 1)
      else (db, 0)

/-- Modelled from the spec: a release whose capacity restoration is an
atomic conditional update gated on the version observed when the
cancellation began (the spec's shared-resource policy requires every
capacity mutation to go through the version-gated primitive; the
repository's `cancel_booking` does not do this).  The observed version
is read at lookup time; after interference the restoration applies
only if the version is unchanged, with no retry. -/
def cancel_booking_gated (env : DB → DB) (db : DB) (bid uid : Nat) :
    DB × Except CancelErr Booking :=
  match findBooking db bid uid with
  | none => (db, Except.error CancelErr.notFound)
  | some b =>
      if b.status = BookingStatus.cancelled then
        (db, Except.error CancelErr.alreadyCancelled)
      else
        let obsV := (lookupEvent db b.event_id).map (fun ev => ev.version)
        let db1 := env db
        let db2 :=
          match obsV with
          | none => db1
          | some v => (condRestore db1 b.event_id v b.seat_count).1
        let db3 := setBookingCancelled db2 bid
        (db3, Except.ok { b with status := BookingStatus.cancelled })

/-- Observable side effects of the `create_booking` route handler
(`api/routes/bookings.py` lines 19-35), including the admission-gate
effects the spec's control flow prescribes (never emitted by the
source route, which calls `book_seats` directly). -/
inductive Effect
  | admitCheck
  | admitRelease
  | reserveCall
  | cacheInvalidate
deriving DecidableEq, Repr

/-- Rejection kinds at the route boundary. -/
inductive RouteErr
  | validationFailure
  | engine (e : BookErr)
deriving DecidableEq, Repr

/-- The `seat_count` validation of `schemas/booking.py`:
`Field(default=1, gt=0, le=10)`. -/
def validSeatCount (sc : Int) : Bool :=
  decide (0 < sc) && decide (sc ≤ 10)

/-- The `create_booking` route handler (`api/routes/bookings.py` lines
19-35): pydantic validates the request body before the handler runs;
the handler calls `book_seats` directly and, on success, invalidates
the event-listing cache.  A raised rejection skips the invalidation.
The effect list records which collaborators were consulted. -/
def create_booking (user eid : Nat) (sc : Int) (db : DB) :
    DB × List Effect × Except RouteErr Booking :=
  if validSeatCount sc then
    let r := book_seats noInterference user eid sc db
    match r.2.2 with
    | Except.ok b => (r.1, [Effect.reserveCall, Effect.cacheInvalidate], Except.ok b)
    | Except.error e => (r.1, [Effect.reserveCall], Except.error (RouteErr.engine e))
  else
    (db, [], Except.error RouteErr.validationFailure)

namespace RedisAdmission

/-- `RedisAdmission.admit` of `services/admission_service.py` (lines
45-63): run the atomic Lua check-and-reserve script on the keys
derived from the event id, coerce its integer reply to a boolean, and
on any raised error fall back to admitting the request (the fail-open
circuit breaker).  The script call is modelled as an oracle from
(event id, seats) to either a reply or an error. -/
def admitRequest {ε : Type} (script : Nat → Int → Except ε Nat)
    (event_id : Nat) (seats : Int) : Bool :=
  match script event_id seats with
  | Except.ok r => r != 0
  | Except.error _ => true

end RedisAdmission

/-! ### Small-step system of concurrent `book_seats` calls

Each in-flight `book_seats(user, eid, q)` call is a thread whose
program counter sits at one of the `await` boundaries of the source;
a step executes the thread's next atomic statement against the shared
store.  Any interleaving of N concurrent calls is a run of this
relation. -/

/-- Program counter of one in-flight `book_seats` call: about to run
the duplicate-check query; about to read the event at attempt `a`;
about to issue the conditional update at attempt `a` with observed
version `obsV`; about to insert the booking row; or finished with the
given outcome (`none` is success). -/
inductive TPc
  | dupCheck
  | readEvent (a : Nat)
  | condUpd (a : Nat) (obsV : Nat)
  | insert
  | halted (r : Option BookErr)
deriving DecidableEq, Repr

/-- One in-flight `book_seats` call. -/
structure Thread where
  user : Nat
  q : Int
  pc : TPc
deriving DecidableEq, Repr

/-- Shared store plus the in-flight calls. -/
structure Sys where
  db : DB
  threads : List Thread
deriving DecidableEq, Repr

/-- Transaction abort after the booking INSERT fails: the attempt's
conditional decrement has not committed, so its effect on the event
row is undone. -/
def rollbackUpd (db : DB) (eid : Nat) (q : Int) : DB :=
  match lookupEvent db eid with
  | none => db
  | some ev =>
      setEvent db eid
        { ev with available_seats := ev.available_seats + q, version := ev.version - 1 }

/-- One atomic statement of one thread, chosen nondeterministically:
the constructors mirror, in order, the duplicate guard, the event
read with its 404 and insufficient-capacity exits, the conditional
update with its conflict-retry, conflict-exhaustion and success
outcomes, and the booking INSERT with its success and
integrity-failure outcomes. -/
inductive Step (eid : Nat) : Sys → Sys → Prop
  | dupHit (s : Sys) (i : Nat) (t : Thread)
      (hget : s.threads.get? i = some t) (hpc : t.pc = TPc.dupCheck)
      (hdup : hasConfirmedBooking s.db t.user eid = true) :
      Step eid s ⟨s.db, s.threads.set i { t with pc := TPc.halted (some BookErr.duplicateBooking) }⟩
  | dupMiss (s : Sys) (i : Nat) (t : Thread)
      (hget : s.threads.get? i = some t) (hpc : t.pc = TPc.dupCheck)
      (hdup : hasConfirmedBooking s.db t.user eid = false) :
      Step eid s ⟨s.db, s.threads.set i { t with pc := TPc.readEvent 1 }⟩
  | readMissing (s : Sys) (i : Nat) (t : Thread) (a : Nat)
      (hget : s.threads.get? i = some t) (hpc : t.pc = TPc.readEvent a)
      (hev : lookupEvent s.db eid = none) :
      Step eid s ⟨s.db, s.threads.set i { t with pc := TPc.halted (some (BookErr.notFound eid)) }⟩
  | readInsufficient (s : Sys) (i : Nat) (t : Thread) (a : Nat) (ev : Event)
      (hget : s.threads.get? i = some t) (hpc : t.pc = TPc.readEvent a)
      (hev : lookupEvent s.db eid = some ev) (hlt : ev.available_seats < t.q) :
      Step eid s ⟨s.db, s.threads.set i
        { t with pc := TPc.halted (some (BookErr.insufficientCapacity t.q ev.available_seats)) }⟩
  | readOk (s : Sys) (i : Nat) (t : Thread) (a : Nat) (ev : Event)
      (hget : s.threads.get? i = some t) (hpc : t.pc = TPc.readEvent a)
      (hev : lookupEvent s.db eid = some ev) (hge : ¬ ev.available_seats < t.q) :
      Step eid s ⟨s.db, s.threads.set i { t with pc := TPc.condUpd a ev.version }⟩
  | updConflictRetry (s : Sys) (i : Nat) (t : Thread) (a obsV : Nat)
      (hget : s.threads.get? i = some t) (hpc : t.pc = TPc.condUpd a obsV)
      (hrc : (condUpdate s.db eid obsV t.q).2 = 0) (ha : a ≠ MAX_RETRY_ATTEMPTS) :
      Step eid s ⟨(condUpdate s.db eid obsV t.q).1,
        s.threads.set i { t with pc := TPc.readEvent (a + 1) }⟩
  | updConflictStop (s : Sys) (i : Nat) (t : Thread) (a obsV : Nat)
      (hget : s.threads.get? i = some t) (hpc : t.pc = TPc.condUpd a obsV)
      (hrc : (condUpdate s.db eid obsV t.q).2 = 0) (ha : a = MAX_RETRY_ATTEMPTS) :
      Step eid s ⟨(condUpdate s.db eid obsV t.q).1,
        s.threads.set i { t with pc := TPc.halted (some BookErr.contentionExhausted) }⟩
  | updSuccess (s : Sys) (i : Nat) (t : Thread) (a obsV : Nat) (db1 : DB)
      (hget : s.threads.get? i = some t) (hpc : t.pc = TPc.condUpd a obsV)
      (hupd : condUpdate s.db eid obsV t.q = (db1, 1)) :
      Step eid s ⟨db1, s.threads.set i { t with pc := TPc.insert }⟩
  | insertOk (s : Sys) (i : Nat) (t : Thread) (db1 : DB) (bk : Booking)
      (hget : s.threads.get? i = some t) (hpc : t.pc = TPc.insert)
      (hins : insertBooking s.db t.user eid t.q = (db1, some bk)) :
      Step eid s ⟨db1, s.threads.set i { t with pc := TPc.halted none }⟩
  | insertFail (s : Sys) (i : Nat) (t : Thread)
      (hget : s.threads.get? i = some t) (hpc : t.pc = TPc.insert)
      (hins : (insertBooking s.db t.user eid t.q).2 = none) :
      Step eid s ⟨rollbackUpd s.db eid t.q,
        s.threads.set i { t with pc := TPc.halted (some BookErr.integrityError) }⟩

/-- All states an interleaving of the in-flight calls can reach. -/
def Reachable (eid : Nat) (s0 s : Sys) : Prop :=
  Relation.ReflTransGen (Step eid) s0 s

/-- Contribution of one booking row to the confirmed seat total of
event `eid`. -/
def bookingWeight (eid : Nat) (b : Booking) : Int :=
  if b.event_id = eid ∧ b.status = BookingStatus.confirmed then b.seat_count else 0

/-- Summed quantities of the confirmed bookings of event `eid`. -/
def confirmedSeats (db : DB) (eid : Nat) : Int :=
  (db.bookings.map (bookingWeight eid)).sum

/-- Seats a thread has decremented but not yet recorded as a booking
row (it sits between its successful conditional update and its
INSERT). -/
def pendingWeight (t : Thread) : Int :=
  if t.pc = TPc.insert then t.q else 0

/-- Total seats decremented by in-flight calls but not yet recorded. -/
def pendingSeats (ts : List Thread) : Int :=
  (ts.map pendingWeight).sum

/-- The inductive invariant of the concurrent system: every in-flight
request is for at least one seat, the event row exists, its remaining
capacity is non-negative, and confirmed seats plus in-flight
decrements plus remaining capacity stay within the capacity bound. -/
def Inv (eid : Nat) (cap : Int) (s : Sys) : Prop :=
  (∀ t ∈ s.threads, 1 ≤ t.q) ∧
  ∃ ev, lookupEvent s.db eid = some ev ∧
    0 ≤ ev.available_seats ∧
    confirmedSeats s.db eid + pendingSeats s.threads + ev.available_seats ≤ cap

/-- Initial state: a fresh event with full availability at version 1,
no bookings, and the given calls all about to run their duplicate
check. -/
def initSys (eid : Nat) (cap : Int) (ts : List Thread) : Sys :=
  { db := { events := [(eid, { seat_count := cap, available_seats := cap, version := 1 })],
            bookings := [], nextBookingId := 1 },
    threads := ts }

/-- A concrete store with one fresh event of capacity 100 (the
fixtures in `tests/conftest.py` create events of this shape). -/
def demoDB : DB :=
  { events := [(1, { seat_count := 100, available_seats := 100, version := 1 })],
    bookings := [], nextBookingId := 1 }

/-- A store in which user 7 already holds a confirmed booking for
event 1. -/
def dupDB : DB :=
  { events := [(1, { seat_count := 100, available_seats := 98, version := 2 })],
    bookings := [{ id := 1, user_id := 7, event_id := 1, seat_count := 2,
                   status := BookingStatus.confirmed }],
    nextBookingId := 2 }

/-- A store whose event has only one remaining seat. -/
def lowDB : DB :=
  { events := [(1, { seat_count := 100, available_seats := 1, version := 5 })],
    bookings := [], nextBookingId := 1 }

/-- A concurrent transaction that bumps the version of the given
event, invalidating any previously observed version. -/
def bumpVersion (db : DB) (eid : Nat) : DB :=
  match lookupEvent db eid with
  | none => db
  | some ev => setEvent db eid { ev with version := ev.version + 1 }

/-- A schedule under which a concurrent transaction bumps event 1's
version between every read and its conditional update, forcing a
conflict at each attempt. -/
def contendEnv : Interference :=
  fun i db => if i % 2 == 1 then bumpVersion db 1 else db

/-- A concurrent transaction bumping event 1's version once, between
`cancel_booking`'s lookup and its restoration update. -/
def bumpEnv1 : DB → DB := fun db => bumpVersion db 1

/-- A store with a confirmed two-seat booking by user 7 on event 1,
whose row sits at version 5 with 8 of 10 seats remaining. -/
def c2db : DB :=
  { events := [(1, { seat_count := 10, available_seats := 8, version := 5 })],
    bookings := [{ id := 1, user_id := 7, event_id := 1, seat_count := 2,
                   status := BookingStatus.confirmed }],
    nextBookingId := 2 }

/-! ### Theorems -/

/-- The retry loop executes at most `fuel` conditional updates. -/
theorem bookLoop_trace_length_le (env : Interference) (user eid : Nat) (q : Int) :
    ∀ (fuel a : Nat) (db : DB), (bookLoop env user eid q fuel a db).2.1.length ≤ fuel := by
  intro fuel
  induction fuel with
  | zero => intro a db; simp [bookLoop]
  | succ fuel ih =>
    intro a db
    unfold bookLoop
    dsimp only []
    split
    · simp
    · split
      · simp
      · split
        · split
          · simp
          · simpa using ih (a + 1) _
        · split
          · simp
          · simp

/-- If the retry loop runs out of attempts with every executed
conditional update reporting zero affected rows, the call ends in the
contention-exhausted rejection. -/
theorem bookLoop_all_conflicts (env : Interference) (user eid : Nat) (q : Int) :
    ∀ (fuel a : Nat) (db : DB), a + fuel = MAX_RETRY_ATTEMPTS + 1 → 1 ≤ fuel →
      (bookLoop env user eid q fuel a db).2.1.length = fuel →
      (∀ r ∈ (bookLoop env user eid q fuel a db).2.1, r.rowcount = 0) →
      (bookLoop env user eid q fuel a db).2.2 = Except.error BookErr.contentionExhausted := by
  intro fuel
  induction fuel with
  | zero => intro a db _ h; exact absurd h (by omega)
  | succ fuel ih =>
    intro a db hsum hpos hlen hall
    unfold bookLoop at hlen hall ⊢
    dsimp only [] at hlen hall ⊢
    cases hev : lookupEvent (env (2 * a) db) eid with
    | none =>
      rw [hev] at hlen
      simp at hlen
    | some ev =>
      rw [hev] at hlen hall
      dsimp only [] at hlen hall ⊢
      by_cases hlt : ev.available_seats < q
      · rw [if_pos hlt] at hlen
        simp at hlen
      · rw [if_neg hlt] at hlen hall ⊢
        by_cases hrc : (condUpdate (env (2 * a + 1) (env (2 * a) db)) eid ev.version q).2 = 0
        · rw [if_pos hrc] at hlen hall ⊢
          by_cases ha : a = MAX_RETRY_ATTEMPTS
          · rw [if_pos ha]
          · rw [if_neg ha] at hlen hall ⊢
            dsimp only [] at hlen hall ⊢
            refine ih (a + 1) _ (by omega) (by unfold MAX_RETRY_ATTEMPTS at *; omega) ?_ ?_
            · simpa using hlen
            · intro r hr
              exact hall r (List.mem_cons_of_mem _ hr)
        · rw [if_neg hrc] at hlen hall ⊢
          rcases hins : insertBooking (condUpdate (env (2 * a + 1) (env (2 * a) db)) eid ev.version q).1 user eid q with ⟨db4, ob⟩
          rw [hins] at hlen hall
          cases ob with
          | some b =>
            have h1 := hall ⟨ev.version, 1⟩ (List.mem_singleton.mpr rfl)
            simp at h1
          | none =>
            have h1 := hall ⟨ev.version, 1⟩ (List.mem_singleton.mpr rfl)
            simp at h1

/-- Claim C3: a reserve call executes the atomic conditional decrement
at most `MAX_RETRY_ATTEMPTS` (3) times; if it used all three attempts
and every one reported zero affected rows (a version conflict), the
call is rejected with the contention-exhausted error, which is a
different rejection kind from insufficient capacity. -/
theorem retry_bound_and_contention (env : Interference) (user eid : Nat) (q : Int) (db : DB) :
    (book_seats env user eid q db).2.1.length ≤ MAX_RETRY_ATTEMPTS ∧
    ((book_seats env user eid q db).2.1.length = MAX_RETRY_ATTEMPTS →
      (∀ r ∈ (book_seats env user eid q db).2.1, r.rowcount = 0) →
      (book_seats env user eid q db).2.2 = Except.error BookErr.contentionExhausted) ∧
    (∀ req avail : Int, BookErr.contentionExhausted ≠ BookErr.insufficientCapacity req avail) := by
  refine ⟨?_, ?_, fun req avail h => BookErr.noConfusion h⟩
  · unfold book_seats
    by_cases hdup : hasConfirmedBooking db user eid = true
    · rw [if_pos hdup]
      simp
    · rw [if_neg hdup]
      exact bookLoop_trace_length_le env user eid q MAX_RETRY_ATTEMPTS 1 db
  · intro hlen hall
    unfold book_seats at hlen hall ⊢
    by_cases hdup : hasConfirmedBooking db user eid = true
    · rw [if_pos hdup] at hlen
      simp [MAX_RETRY_ATTEMPTS] at hlen
    · rw [if_neg hdup] at hlen hall ⊢
      exact bookLoop_all_conflicts env user eid q MAX_RETRY_ATTEMPTS 1 db (by omega)
        (by decide) hlen hall

/-- Witness for `retry_bound_and_contention`: under a schedule that
bumps the version between every read and its update, all three
attempts conflict and the call ends contention-exhausted. -/
theorem retry_bound_and_contention_witness :
    (book_seats contendEnv 7 1 1 demoDB).2.1.length ≤ MAX_RETRY_ATTEMPTS ∧
    (book_seats contendEnv 7 1 1 demoDB).2.2 = Except.error BookErr.contentionExhausted :=
  ⟨(retry_bound_and_contention contendEnv 7 1 1 demoDB).1,
   (retry_bound_and_contention contendEnv 7 1 1 demoDB).2.1 (by decide) (by decide)⟩

/-- Replacing the found entry of an association list rewrites exactly
the entry `find?` returns. -/
theorem find?_replace (eid : Nat) (ev : Event) :
    ∀ (l : List (Nat × Event)) (p0 : Nat × Event),
      l.find? (fun p => p.1 == eid) = some p0 →
      (l.map (fun p => if p.1 == eid then (p.1, ev) else p)).find? (fun p => p.1 == eid)
        = some (p0.1, ev) := by
  intro l
  induction l with
  | nil => intro p0 h; simp at h
  | cons p ps ih =>
    intro p0 h
    cases hp : p.1 == eid with
    | true =>
      simp only [List.find?_cons, hp] at h
      injection h with h
      subst h
      simp only [List.map_cons, if_pos hp, List.find?_cons]
      rw [hp]
    | false =>
      simp only [List.find?_cons, hp] at h
      simp only [List.map_cons, hp, Bool.false_eq_true, if_false, List.find?_cons]
      exact ih p0 h

/-- After `setEvent`, looking the same event up returns the written
row (provided the row existed). -/
theorem lookupEvent_setEvent_self (db : DB) (eid : Nat) (ev0 ev : Event)
    (h : lookupEvent db eid = some ev0) :
    lookupEvent (setEvent db eid ev) eid = some ev := by
  unfold lookupEvent at h ⊢
  unfold setEvent
  cases hf : db.events.find? (fun p => p.1 == eid) with
  | none => rw [hf] at h; simp at h
  | some p0 =>
    have hr := find?_replace eid ev db.events p0 hf
    dsimp only []
    rw [hr]
    rfl

/-- A conditional update whose version precondition fails affects zero
rows and leaves the store untouched. -/
theorem condUpdate_wrong_version (db : DB) (eid obsV : Nat) (q : Int) (ev : Event)
    (hev : lookupEvent db eid = some ev) (hv : ev.version ≠ obsV) :
    condUpdate db eid obsV q = (db, 0) := by
  unfold condUpdate
  rw [hev]
  dsimp only []
  rw [if_neg]
  intro hc
  exact hv hc.1

/-- A conditional update whose predicate holds decrements remaining
capacity and bumps the version in the same atomic write. -/
theorem condUpdate_applies (db : DB) (eid obsV : Nat) (q : Int) (ev : Event)
    (hev : lookupEvent db eid = some ev) (hv : ev.version = obsV)
    (hq : q ≤ ev.available_seats) :
    condUpdate db eid obsV q =
      (setEvent db eid { ev with available_seats := ev.available_seats - q,
                                 version := ev.version + 1 }, 1) := by
  unfold condUpdate
  rw [hev]
  dsimp only []
  rw [if_pos ⟨hv, hq⟩]

/-- The seat restoration of `cancel_booking` applies no matter how the
event's version changed since the cancellation began: whenever the
booking exists and is not yet cancelled, remaining capacity grows by
the booked quantity and the version is bumped, in one atomic write,
with no version precondition. -/
theorem cancel_restores_unconditionally (env : DB → DB) (db : DB) (bid uid : Nat)
    (bk : Booking) (ev : Event)
    (hfind : findBooking db bid uid = some bk)
    (hst : bk.status ≠ BookingStatus.cancelled)
    (hev : lookupEvent (env db) bk.event_id = some ev) :
    lookupEvent (cancel_booking env db bid uid).1 bk.event_id =
      some { ev with available_seats := ev.available_seats + bk.seat_count,
                     version := ev.version + 1 } := by
  unfold cancel_booking
  rw [hfind]
  dsimp only []
  rw [if_neg hst]
  have hsame : lookupEvent
      (setBookingCancelled (restoreSeats (env db) bk.event_id bk.seat_count) bid) bk.event_id
      = lookupEvent (restoreSeats (env db) bk.event_id bk.seat_count) bk.event_id := rfl
  rw [hsame]
  unfold restoreSeats
  rw [hev]
  exact lookupEvent_setEvent_self _ _ ev _ hev

/-- Counterexample to claim C2: with a concurrent transaction bumping
the event's version between `cancel_booking`'s lookup and its update,
the repository's release differs from the spec-modelled version-gated
release — the restoration update of `cancel_booking` carries no
version condition, so the release mutation is not gated on the
previously observed version. -/
theorem release_not_version_gated :
    (cancel_booking bumpEnv1 c2db 1 7).1 ≠ (cancel_booking_gated bumpEnv1 c2db 1 7).1 := by
  decide

/-- Claim C2 (amended): the decrement in reserve is an atomic
conditional update gated on the previously observed version — on a
version mismatch it affects zero rows and nothing changes, and when it
applies it changes remaining capacity and version together in one
write.  The capacity restoration in release also updates capacity and
version together atomically, but it is unconditional: it applies for
every observed version, gated on nothing. -/
theorem core_mutation_discipline :
    (∀ (db : DB) (eid obsV : Nat) (q : Int) (ev : Event),
        lookupEvent db eid = some ev → ev.version ≠ obsV →
        condUpdate db eid obsV q = (db, 0)) ∧
    (∀ (db : DB) (eid obsV : Nat) (q : Int) (ev : Event),
        lookupEvent db eid = some ev → ev.version = obsV → q ≤ ev.available_seats →
        condUpdate db eid obsV q =
          (setEvent db eid { ev with available_seats := ev.available_seats - q,
                                     version := ev.version + 1 }, 1)) ∧
    (∀ (env : DB → DB) (db : DB) (bid uid : Nat) (bk : Booking) (ev : Event),
        findBooking db bid uid = some bk → bk.status ≠ BookingStatus.cancelled →
        lookupEvent (env db) bk.event_id = some ev →
        lookupEvent (cancel_booking env db bid uid).1 bk.event_id =
          some { ev with available_seats := ev.available_seats + bk.seat_count,
                         version := ev.version + 1 }) :=
  ⟨fun db eid obsV q ev hev hv => condUpdate_wrong_version db eid obsV q ev hev hv,
   fun db eid obsV q ev hev hv hq => condUpdate_applies db eid obsV q ev hev hv hq,
   fun env db bid uid bk ev hfind hst hev =>
     cancel_restores_unconditionally env db bid uid bk ev hfind hst hev⟩

/-- Witness for `core_mutation_discipline`: a mismatched version
leaves the store untouched, and the release restoration applies even
after a concurrent version bump. -/
theorem core_mutation_discipline_witness :
    condUpdate c2db 1 4 2 = (c2db, 0) ∧
    lookupEvent (cancel_booking bumpEnv1 c2db 1 7).1 1
      = some { seat_count := 10, available_seats := 10, version := 7 } := by
  refine ⟨core_mutation_discipline.1 c2db 1 4 2
    { seat_count := 10, available_seats := 8, version := 5 } (by decide) (by decide), ?_⟩
  have h := core_mutation_discipline.2.2 bumpEnv1 c2db 1 7
    { id := 1, user_id := 7, event_id := 1, seat_count := 2,
      status := BookingStatus.confirmed }
    { seat_count := 10, available_seats := 8, version := 6 }
    (by decide) (by decide) (by decide)
  simpa using h

/-- Claim C7: for every resource id and quantity, if the counter-store
check inside the admission gate raises any error, the gate returns
true — it fails open rather than blocking the request. -/
theorem admission_fails_open {ε : Type} (script : Nat → Int → Except ε Nat)
    (eid : Nat) (seats : Int) (e : ε) (h : script eid seats = Except.error e) :
    RedisAdmission.admitRequest script eid seats = true := by
  unfold RedisAdmission.admitRequest
  rw [h]

/-- Witness for `admission_fails_open`: a script oracle that always
raises still yields admission. -/
theorem admission_fails_open_witness :
    RedisAdmission.admitRequest (fun _ _ => (Except.error () : Except Unit Nat)) 1 2 = true :=
  admission_fails_open (fun _ _ => Except.error ()) 1 2 () rfl

/-- Claim C5: when a confirmed booking for (owner, resource) already
exists, a second reserve by that owner is rejected with the
duplicate-booking error before the retry loop runs: the store is
returned unchanged and no conditional update is attempted. -/
theorem duplicate_booking_guard (env : Interference) (user eid : Nat) (q : Int) (db : DB)
    (h : hasConfirmedBooking db user eid = true) :
    book_seats env user eid q db = (db, [], Except.error BookErr.duplicateBooking) := by
  simp [book_seats, h]

/-- Witness for `duplicate_booking_guard` on a concrete store. -/
theorem duplicate_booking_guard_witness :
    book_seats noInterference 7 1 2 dupDB = (dupDB, [], Except.error BookErr.duplicateBooking) :=
  duplicate_booking_guard noInterference 7 1 2 dupDB (by decide)

/-- Claim C4: at any attempt of the retry loop, when the event read
observes remaining capacity strictly below the requested quantity,
the call rejects at once with the insufficient-capacity error: no
conditional update is executed (empty attempt list), there is no
retry, and the returned store is exactly the read-time store — the
call itself mutates neither remaining capacity nor version. -/
theorem insufficient_capacity_immediate (env : Interference) (user eid : Nat) (q : Int)
    (fuel a : Nat) (db : DB) (ev : Event)
    (hev : lookupEvent (env (2 * a) db) eid = some ev)
    (hlt : ev.available_seats < q) :
    bookLoop env user eid q (fuel + 1) a db =
      (env (2 * a) db, [], Except.error (BookErr.insufficientCapacity q ev.available_seats)) := by
  unfold bookLoop
  simp [hev, hlt]

/-- Witness for `insufficient_capacity_immediate`: requesting 2 seats
with 1 remaining rejects immediately at the first attempt. -/
theorem insufficient_capacity_immediate_witness :
    bookLoop noInterference 7 1 2 3 1 lowDB =
      (lowDB, [], Except.error (BookErr.insufficientCapacity 2 1)) :=
  insufficient_capacity_immediate noInterference 7 1 2 2 1 lowDB
    { seat_count := 100, available_seats := 1, version := 5 } (by decide) (by decide)

/-- Claim C9 evaluated at its concrete scenario (capacity 100, user 7
books 2 seats, cancels, then books 2 seats again): the second booking
does not succeed — the unconditional unique constraint on
(user_id, event_id) rejects the INSERT even though the earlier row is
cancelled, so the call raises the integrity error, the transaction
aborts, remaining capacity stays 100 at version 3, and the cancelled
row is the only booking record. -/
theorem rebook_after_cancel_raises_integrity :
    (book_seats noInterference 7 1 2
        (cancel_booking (fun d => d) (book_seats noInterference 7 1 2 demoDB).1 1 7).1).2.2
      = Except.error BookErr.integrityError ∧
    lookupEvent (book_seats noInterference 7 1 2
        (cancel_booking (fun d => d) (book_seats noInterference 7 1 2 demoDB).1 1 7).1).1 1
      = some { seat_count := 100, available_seats := 100, version := 3 } ∧
    (book_seats noInterference 7 1 2
        (cancel_booking (fun d => d) (book_seats noInterference 7 1 2 demoDB).1 1 7).1).1.bookings
      = [{ id := 1, user_id := 7, event_id := 1, seat_count := 2,
           status := BookingStatus.cancelled }] := by
  decide

/-- Counterexample to claim C8: at a concrete valid booking request
the route's effect list invokes the reservation engine, yet its first
effect is not an admission check — the admission gate is never
consulted by `create_booking`. -/
theorem route_bypasses_admission_gate :
    Effect.reserveCall ∈ (create_booking 7 1 2 demoDB).2.1 ∧
    (create_booking 7 1 2 demoDB).2.1.head? ≠ some Effect.admitCheck := by
  decide

/-- Claim C8 (amended): the create-booking route invokes the
reservation engine directly; it never consults the admission gate and
never releases an admission counter, on success or rejection — the
gate implementations exist behind the strategy factory but are not
wired into the booking path. -/
theorem booking_route_control_flow (user eid : Nat) (sc : Int) (db : DB) :
    Effect.admitCheck ∉ (create_booking user eid sc db).2.1 ∧
    Effect.admitRelease ∉ (create_booking user eid sc db).2.1 ∧
    (validSeatCount sc = true → Effect.reserveCall ∈ (create_booking user eid sc db).2.1) := by
  unfold create_booking
  by_cases hv : validSeatCount sc
  · rw [if_pos hv]
    cases h : (book_seats noInterference user eid sc db).2.2 <;> simp [h]
  · rw [if_neg hv]
    simp only [Bool.not_eq_true] at hv
    simp [hv]

/-- Witness for `booking_route_control_flow` at a concrete request. -/
theorem booking_route_control_flow_witness :
    Effect.admitCheck ∉ (create_booking 7 1 3 demoDB).2.1 ∧
    Effect.reserveCall ∈ (create_booking 7 1 3 demoDB).2.1 :=
  ⟨(booking_route_control_flow 7 1 3 demoDB).1,
   (booking_route_control_flow 7 1 3 demoDB).2.2 (by decide)⟩

/-- Claim C10: the route accepts a seat count exactly when it lies in
[1, 10]; an out-of-range request is rejected by validation with no
effect on the store and no collaborator consulted, so the reservation
engine is only ever invoked with a quantity in [1, 10]. -/
theorem seat_count_validation_bounds (user eid : Nat) (sc : Int) (db : DB) :
    (validSeatCount sc = true ↔ 1 ≤ sc ∧ sc ≤ 10) ∧
    (validSeatCount sc = false →
      create_booking user eid sc db = (db, [], Except.error RouteErr.validationFailure)) ∧
    (Effect.reserveCall ∈ (create_booking user eid sc db).2.1 → 1 ≤ sc ∧ sc ≤ 10) := by
  have hiff : validSeatCount sc = true ↔ 1 ≤ sc ∧ sc ≤ 10 := by
    simp only [validSeatCount, Bool.and_eq_true, decide_eq_true_eq]
    omega
  refine ⟨hiff, ?_, ?_⟩
  · intro h
    simp [create_booking, h]
  · intro hmem
    by_cases hv : validSeatCount sc = true
    · exact hiff.mp hv
    · have hf : validSeatCount sc = false := by
        simpa using hv
      simp [create_booking, hf] at hmem

/-- Witness for `seat_count_validation_bounds`: a zero-seat request is
rejected by validation with the store untouched. -/
theorem seat_count_validation_bounds_witness :
    create_booking 7 1 0 demoDB = (demoDB, [], Except.error RouteErr.validationFailure) :=
  (seat_count_validation_bounds 7 1 0 demoDB).2.1 (by decide)

/-- Updating one entry of a list changes a mapped sum by the
difference of the images. -/
theorem sum_map_set {α : Type} (f : α → Int) :
    ∀ (l : List α) (i : Nat) (t t1 : α), l.get? i = some t →
      ((l.set i t1).map f).sum = (l.map f).sum - f t + f t1 := by
  intro l
  induction l with
  | nil => intro i t t1 h; simp at h
  | cons a as ih =>
    intro i t t1 h
    cases i with
    | zero =>
      rw [List.get?_cons_zero] at h
      injection h with h
      subst h
      simp only [List.set_cons_zero, List.map_cons, List.sum_cons]
      ring
    | succ n =>
      rw [List.get?_cons_succ] at h
      simp only [List.set_cons_succ, List.map_cons, List.sum_cons, ih n t t1 h]
      ring

/-- Effect of replacing one thread on the pending-seat total. -/
theorem pendingSeats_set (ts : List Thread) (i : Nat) (t t1 : Thread)
    (h : ts.get? i = some t) :
    pendingSeats (ts.set i t1) = pendingSeats ts - pendingWeight t + pendingWeight t1 :=
  sum_map_set pendingWeight ts i t t1 h

/-- Pending seats are non-negative when every request is for at least
one seat. -/
theorem pendingSeats_nonneg (ts : List Thread) (h : ∀ t ∈ ts, 1 ≤ t.q) :
    0 ≤ pendingSeats ts := by
  induction ts with
  | nil => simp [pendingSeats]
  | cons t ts ih =>
    have h1 : 0 ≤ pendingWeight t := by
      unfold pendingWeight
      split
      · linarith [h t (List.mem_cons_self t ts)]
      · exact le_refl 0
    have h2 := ih (fun x hx => h x (List.mem_cons_of_mem _ hx))
    unfold pendingSeats at h2 ⊢
    simp only [List.map_cons, List.sum_cons]
    linarith

/-- No seats are pending while every call still sits at its duplicate
check. -/
theorem pendingSeats_zero (ts : List Thread) (h : ∀ t ∈ ts, t.pc = TPc.dupCheck) :
    pendingSeats ts = 0 := by
  induction ts with
  | nil => rfl
  | cons t ts ih =>
    have ht := h t (List.mem_cons_self t ts)
    have h2 := ih (fun x hx => h x (List.mem_cons_of_mem _ hx))
    unfold pendingSeats at h2 ⊢
    simp only [List.map_cons, List.sum_cons, h2]
    simp [pendingWeight, ht]

/-- A conditional update that affected zero rows left the store
untouched. -/
theorem condUpdate_zero_rows (db : DB) (eid obsV : Nat) (q : Int)
    (h : (condUpdate db eid obsV q).2 = 0) :
    (condUpdate db eid obsV q).1 = db := by
  unfold condUpdate at h ⊢
  cases hev : lookupEvent db eid with
  | none => rfl
  | some ev =>
    rw [hev] at h
    dsimp only [] at h ⊢
    by_cases hc : ev.version = obsV ∧ q ≤ ev.available_seats
    · rw [if_pos hc] at h
      simp at h
    · rw [if_neg hc]

/-- Inversion of a conditional update that affected one row: the
event existed, the version matched, the capacity sufficed, and the
store received the decremented row. -/
theorem condUpdate_one_inv (db db1 : DB) (eid obsV : Nat) (q : Int)
    (h : condUpdate db eid obsV q = (db1, 1)) :
    ∃ ev, lookupEvent db eid = some ev ∧ ev.version = obsV ∧ q ≤ ev.available_seats ∧
      db1 = setEvent db eid { ev with available_seats := ev.available_seats - q,
                                      version := ev.version + 1 } := by
  unfold condUpdate at h
  cases hev : lookupEvent db eid with
  | none => rw [hev] at h; simp at h
  | some ev =>
    rw [hev] at h
    dsimp only [] at h
    by_cases hc : ev.version = obsV ∧ q ≤ ev.available_seats
    · rw [if_pos hc] at h
      rw [Prod.mk.injEq] at h
      exact ⟨ev, rfl, hc.1, hc.2, h.1.symm⟩
    · rw [if_neg hc] at h
      simp at h

/-- A failed INSERT leaves the store untouched. -/
theorem insertBooking_none_fst (db : DB) (user eid : Nat) (q : Int)
    (h : (insertBooking db user eid q).2 = none) :
    (insertBooking db user eid q).1 = db := by
  unfold insertBooking at h ⊢
  by_cases hc : existsBookingPair db user eid = true
  · rw [if_pos hc]
  · rw [if_neg hc] at h ⊢
    simp at h

/-- Inversion of a successful INSERT: the returned row is the fresh
confirmed booking, appended to the table, with the events table
untouched. -/
theorem insertBooking_some_inv (db db1 : DB) (user eid : Nat) (q : Int) (bk : Booking)
    (h : insertBooking db user eid q = (db1, some bk)) :
    bk = { id := db.nextBookingId, user_id := user, event_id := eid,
           seat_count := q, status := BookingStatus.confirmed } ∧
    db1.bookings = db.bookings ++ [bk] ∧ db1.events = db.events := by
  unfold insertBooking at h
  by_cases hc : existsBookingPair db user eid = true
  · rw [if_pos hc] at h
    simp at h
  · rw [if_neg hc] at h
    dsimp only [] at h
    rw [Prod.mk.injEq] at h
    obtain ⟨h1, h2⟩ := h
    injection h2 with h2
    subst h2
    subst h1
    exact ⟨rfl, rfl, rfl⟩

/-- Lookups only read the events table. -/
theorem lookupEvent_congr (db db1 : DB) (eid : Nat) (h : db1.events = db.events) :
    lookupEvent db1 eid = lookupEvent db eid := by
  unfold lookupEvent
  rw [h]

/-- The events table is not changed by a booking INSERT. -/
theorem confirmedSeats_of_bookings (db db1 : DB) (eid : Nat) (bk : Booking)
    (h : db1.bookings = db.bookings ++ [bk]) :
    confirmedSeats db1 eid = confirmedSeats db eid + bookingWeight eid bk := by
  unfold confirmedSeats
  rw [h, List.map_append, List.sum_append]
  simp

/-- Effect of the rollback of an aborted attempt on the event row; the
bookings table is untouched. -/
theorem rollbackUpd_lookup (db : DB) (eid : Nat) (q : Int) (ev : Event)
    (hev : lookupEvent db eid = some ev) :
    lookupEvent (rollbackUpd db eid q) eid =
      some { ev with available_seats := ev.available_seats + q, version := ev.version - 1 } ∧
    (rollbackUpd db eid q).bookings = db.bookings := by
  unfold rollbackUpd
  rw [hev]
  exact ⟨lookupEvent_setEvent_self _ _ ev _ hev, rfl⟩

/-- Replacing a thread by one requesting the same quantity preserves
the at-least-one-seat property. -/
theorem threads_q_set (ts : List Thread) (i : Nat) (t t1 : Thread)
    (hget : ts.get? i = some t) (hq : ∀ x ∈ ts, 1 ≤ x.q) (hqt : t1.q = t.q) :
    ∀ x ∈ ts.set i t1, 1 ≤ x.q := by
  intro x hx
  rcases List.mem_or_eq_of_mem_set hx with hx | hx
  · exact hq x hx
  · subst hx
    rw [hqt]
    exact hq t (List.get?_mem hget)

/-- A step that only moves a program counter between non-pending
positions, leaving the store alone, preserves the invariant. -/
theorem inv_set_pc (eid : Nat) (cap : Int) (db : DB) (ts : List Thread) (i : Nat)
    (t t1 : Thread) (hget : ts.get? i = some t) (hq1 : t1.q = t.q)
    (hw : pendingWeight t1 = pendingWeight t)
    (hinv : Inv eid cap ⟨db, ts⟩) :
    Inv eid cap ⟨db, ts.set i t1⟩ := by
  unfold Inv at hinv ⊢
  obtain ⟨hq, ev, hev, hpos, hsum⟩ := hinv
  refine ⟨threads_q_set ts i t t1 hget hq hq1, ev, hev, hpos, ?_⟩
  have hp := pendingSeats_set ts i t t1 hget
  dsimp only [] at hsum ⊢
  rw [hp, hw]
  linarith

/-- Every atomic statement of a concurrent `book_seats` call
preserves the capacity invariant. -/
theorem step_preserves_inv {eid : Nat} {cap : Int} {s s1 : Sys}
    (hstep : Step eid s s1) (hinv : Inv eid cap s) : Inv eid cap s1 := by
  cases hstep with
  | dupHit i t hget hpc hdup =>
      exact inv_set_pc eid cap s.db s.threads i t _ hget rfl (by simp [pendingWeight, hpc]) hinv
  | dupMiss i t hget hpc hdup =>
      exact inv_set_pc eid cap s.db s.threads i t _ hget rfl (by simp [pendingWeight, hpc]) hinv
  | readMissing i t a hget hpc hemp =>
      unfold Inv at hinv
      obtain ⟨hq, ev, hev, hpos, hsum⟩ := hinv
      rw [hev] at hemp
      exact Option.noConfusion hemp
  | readInsufficient i t a ev hget hpc hev hlt =>
      exact inv_set_pc eid cap s.db s.threads i t _ hget rfl (by simp [pendingWeight, hpc]) hinv
  | readOk i t a ev hget hpc hev hge =>
      exact inv_set_pc eid cap s.db s.threads i t _ hget rfl (by simp [pendingWeight, hpc]) hinv
  | updConflictRetry i t a obsV hget hpc hrc ha =>
      rw [condUpdate_zero_rows s.db eid obsV t.q hrc]
      exact inv_set_pc eid cap s.db s.threads i t _ hget rfl (by simp [pendingWeight, hpc]) hinv
  | updConflictStop i t a obsV hget hpc hrc ha =>
      rw [condUpdate_zero_rows s.db eid obsV t.q hrc]
      exact inv_set_pc eid cap s.db s.threads i t _ hget rfl (by simp [pendingWeight, hpc]) hinv
  | updSuccess i t a obsV db1 hget hpc hupd =>
      unfold Inv at hinv ⊢
      obtain ⟨hq, ev, hev, hpos, hsum⟩ := hinv
      obtain ⟨ev1, hev1, hv1, hq1, hdb1⟩ := condUpdate_one_inv _ _ _ _ _ hupd
      rw [hev] at hev1
      injection hev1 with hev1
      subst hev1
      subst hdb1
      refine ⟨threads_q_set _ i t _ hget hq rfl,
        { ev with available_seats := ev.available_seats - t.q, version := ev.version + 1 },
        lookupEvent_setEvent_self _ _ ev _ hev, by dsimp only []; linarith, ?_⟩
      have hpend := pendingSeats_set s.threads i t { t with pc := TPc.insert } hget
      have hwt : pendingWeight t = 0 := by simp [pendingWeight, hpc]
      have hwt1 : pendingWeight { t with pc := TPc.insert } = t.q := by simp [pendingWeight]
      have hconf : confirmedSeats (setEvent s.db eid
          { ev with available_seats := ev.available_seats - t.q,
                    version := ev.version + 1 }) eid = confirmedSeats s.db eid := rfl
      dsimp only []
      rw [hconf, hpend, hwt, hwt1]
      linarith
  | insertOk i t db1 bk hget hpc hins =>
      unfold Inv at hinv ⊢
      obtain ⟨hq, ev, hev, hpos, hsum⟩ := hinv
      obtain ⟨hbk, hbooks, hevents⟩ := insertBooking_some_inv _ _ _ _ _ _ hins
      refine ⟨threads_q_set _ i t _ hget hq rfl, ev, ?_, hpos, ?_⟩
      · show lookupEvent db1 eid = some ev
        rw [lookupEvent_congr s.db db1 eid hevents]
        exact hev
      · have hconf := confirmedSeats_of_bookings s.db db1 eid bk hbooks
        have hpend := pendingSeats_set s.threads i t { t with pc := TPc.halted none } hget
        have hbw : bookingWeight eid bk = t.q := by
          rw [hbk]
          simp [bookingWeight]
        have hwt : pendingWeight t = t.q := by simp [pendingWeight, hpc]
        have hwt1 : pendingWeight { t with pc := TPc.halted none } = 0 := by
          simp [pendingWeight]
        dsimp only []
        rw [hconf, hpend, hbw, hwt, hwt1]
        linarith
  | insertFail i t hget hpc hins =>
      unfold Inv at hinv ⊢
      obtain ⟨hq, ev, hev, hpos, hsum⟩ := hinv
      obtain ⟨hlook, hbooks⟩ := rollbackUpd_lookup s.db eid t.q ev hev
      have hqt : 1 ≤ t.q := hq t (List.get?_mem hget)
      refine ⟨threads_q_set _ i t _ hget hq rfl,
        { ev with available_seats := ev.available_seats + t.q, version := ev.version - 1 },
        hlook, by dsimp only []; linarith, ?_⟩
      have hconf : confirmedSeats (rollbackUpd s.db eid t.q) eid = confirmedSeats s.db eid := by
        unfold confirmedSeats
        rw [hbooks]
      have hpend := pendingSeats_set s.threads i t
        { t with pc := TPc.halted (some BookErr.integrityError) } hget
      have hwt : pendingWeight t = t.q := by simp [pendingWeight, hpc]
      have hwt1 : pendingWeight { t with pc := TPc.halted (some BookErr.integrityError) } = 0 := by
        simp [pendingWeight]
      dsimp only []
      rw [hconf, hpend, hwt, hwt1]
      linarith

/-- The capacity invariant holds in every reachable state. -/
theorem inv_of_reachable (eid : Nat) (cap : Int) (s0 s : Sys)
    (h0 : Inv eid cap s0) (h : Reachable eid s0 s) : Inv eid cap s := by
  induction h with
  | refl => exact h0
  | tail hr hstep ih => exact step_preserves_inv hstep ih

/-- Claim C1: for any interleaving of N concurrent reserve calls
(each for at least one seat) against a fresh resource of capacity
`cap`, every reachable state has the confirmed bookings' summed
quantities at most `cap` and the remaining capacity non-negative. -/
theorem no_oversell (eid : Nat) (cap : Int) (ts : List Thread) (s : Sys)
    (hcap : 0 ≤ cap)
    (hts : ∀ t ∈ ts, 1 ≤ t.q ∧ t.pc = TPc.dupCheck)
    (hreach : Reachable eid (initSys eid cap ts) s) :
    confirmedSeats s.db eid ≤ cap ∧
    ∃ ev, lookupEvent s.db eid = some ev ∧ 0 ≤ ev.available_seats := by
  have h0 : Inv eid cap (initSys eid cap ts) := by
    unfold Inv
    refine ⟨fun t ht => (hts t ht).1,
      { seat_count := cap, available_seats := cap, version := 1 }, ?_, hcap, ?_⟩
    · simp [initSys, lookupEvent]
    · have hz := pendingSeats_zero ts (fun t ht => (hts t ht).2)
      have hc : confirmedSeats (initSys eid cap ts).db eid = 0 := rfl
      rw [hc]
      dsimp only [initSys]
      rw [hz]
      linarith
  have hinv := inv_of_reachable eid cap _ s h0 hreach
  unfold Inv at hinv
  obtain ⟨hq, ev, hev, hpos, hsum⟩ := hinv
  have hpend := pendingSeats_nonneg s.threads hq
  exact ⟨by linarith, ev, hev, hpos⟩

/-- Witness for `no_oversell`: the initial state of one single-seat
request against a capacity-2 resource. -/
theorem no_oversell_witness :
    confirmedSeats (initSys 1 2 [{ user := 5, q := 1, pc := TPc.dupCheck }]).db 1 ≤ 2 ∧
    ∃ ev, lookupEvent (initSys 1 2 [{ user := 5, q := 1, pc := TPc.dupCheck }]).db 1
      = some ev ∧ 0 ≤ ev.available_seats :=
  no_oversell 1 2 [{ user := 5, q := 1, pc := TPc.dupCheck }] _ (by decide) (by decide)
    Relation.ReflTransGen.refl

/-- If no booking row at all exists for the pair, then in particular
no confirmed one does. -/
theorem hasConfirmed_false_of_noPair (db : DB) (user eid : Nat)
    (h : existsBookingPair db user eid = false) :
    hasConfirmedBooking db user eid = false := by
  unfold existsBookingPair at h
  unfold hasConfirmedBooking
  rw [List.any_eq_false] at h ⊢
  intro b hb
  have hp := h b hb
  simp only [Bool.and_eq_true] at hp ⊢
  tauto

/-- The lookup of a freshly inserted booking row by its primary key
finds that row, because every pre-existing row has a smaller id. -/
theorem findBooking_append_fresh (bs : List Booking) (bk : Booking)
    (hfresh : ∀ b ∈ bs, b.id < bk.id) :
    (bs ++ [bk]).find? (fun b => b.id == bk.id && b.user_id == bk.user_id) = some bk := by
  induction bs with
  | nil =>
    simp [List.find?_cons]
  | cons b bs ih =>
    have hb : b.id ≠ bk.id := Nat.ne_of_lt (hfresh b (List.mem_cons_self b bs))
    have hpred : (b.id == bk.id && b.user_id == bk.user_id) = false := by
      simp [hb]
    simp only [List.cons_append, List.find?_cons, hpred]
    exact ih (fun x hx => hfresh x (List.mem_cons_of_mem _ hx))

/-- With no concurrent interference, an attempt against an event with
sufficient capacity succeeds at once: one conditional update runs, the
row is decremented with its version bumped, and the confirmed booking
is inserted with the next primary key. -/
theorem bookLoop_noInterference_success (user eid : Nat) (q : Int) (fuel a : Nat)
    (db : DB) (ev : Event)
    (hev : lookupEvent db eid = some ev)
    (hge : ¬ ev.available_seats < q)
    (hpair : existsBookingPair db user eid = false) :
    bookLoop noInterference user eid q (fuel + 1) a db =
      ({ (setEvent db eid { ev with available_seats := ev.available_seats - q,
                                    version := ev.version + 1 }) with
         bookings := db.bookings ++ [⟨db.nextBookingId, user, eid, q, BookingStatus.confirmed⟩],
         nextBookingId := db.nextBookingId + 1 },
       [⟨ev.version, 1⟩],
       Except.ok { id := db.nextBookingId, user_id := user, event_id := eid,
                   seat_count := q, status := BookingStatus.confirmed }) := by
  unfold bookLoop
  simp only [noInterference]
  rw [hev]
  dsimp only []
  rw [if_neg hge]
  have hcu := condUpdate_applies db eid ev.version q ev hev rfl (not_lt.mp hge)
  rw [hcu]
  dsimp only []
  rw [if_neg (by simp)]
  have hpair2 : existsBookingPair (setEvent db eid
      { ev with available_seats := ev.available_seats - q,
                version := ev.version + 1 }) user eid = false := hpair
  unfold insertBooking
  rw [if_neg (by simp [hpair2])]
  rfl

/-- A cancellation of an existing confirmed booking restores its
quantity to the event row, bumps the version, and flips the booking's
status. -/
theorem cancel_booking_success (db : DB) (bk : Booking) (ev : Event)
    (hfind : findBooking db bk.id bk.user_id = some bk)
    (hst : bk.status = BookingStatus.confirmed)
    (hev : lookupEvent db bk.event_id = some ev) :
    cancel_booking (fun d => d) db bk.id bk.user_id =
      (setBookingCancelled (setEvent db bk.event_id
          { ev with available_seats := ev.available_seats + bk.seat_count,
                    version := ev.version + 1 }) bk.id,
       Except.ok { bk with status := BookingStatus.cancelled }) := by
  unfold cancel_booking
  rw [hfind]
  dsimp only []
  rw [if_neg (by intro hc; rw [hst] at hc; exact BookingStatus.noConfusion hc)]
  unfold restoreSeats
  rw [hev]

/-- Claim C6: from any resource state (with a well-formed primary-key
counter and no prior booking row for the pair), a successful
reserve(q) followed by a release of the resulting reservation returns
the remaining capacity to its pre-reserve value, and the version after
the release is exactly 2 greater than before the reserve. -/
theorem reserve_then_release_restores (user eid : Nat) (q : Int) (db : DB) (ev : Event)
    (hfresh : ∀ b ∈ db.bookings, b.id < db.nextBookingId)
    (hnopair : existsBookingPair db user eid = false)
    (hev : lookupEvent db eid = some ev)
    (hq : q ≤ ev.available_seats) :
    ∃ bk : Booking,
      (book_seats noInterference user eid q db).2.2 = Except.ok bk ∧
      (cancel_booking (fun d => d) (book_seats noInterference user eid q db).1 bk.id user).2
        = Except.ok { bk with status := BookingStatus.cancelled } ∧
      lookupEvent (cancel_booking (fun d => d)
          (book_seats noInterference user eid q db).1 bk.id user).1 eid
        = some { seat_count := ev.seat_count, available_seats := ev.available_seats,
                 version := ev.version + 2 } := by
  have hdup : hasConfirmedBooking db user eid = false :=
    hasConfirmed_false_of_noPair db user eid hnopair
  obtain ⟨dbB, hdbB⟩ : ∃ x : DB,
      x = { (setEvent db eid { ev with available_seats := ev.available_seats - q,
                                       version := ev.version + 1 }) with
            bookings := db.bookings ++ [⟨db.nextBookingId, user, eid, q, BookingStatus.confirmed⟩],
            nextBookingId := db.nextBookingId + 1 } := ⟨_, rfl⟩
  have hrun : book_seats noInterference user eid q db
      = (dbB, [⟨ev.version, 1⟩],
         Except.ok ⟨db.nextBookingId, user, eid, q, BookingStatus.confirmed⟩) := by
    rw [hdbB]
    unfold book_seats
    rw [if_neg (by simp [hdup])]
    exact bookLoop_noInterference_success user eid q 2 1 db ev hev (not_lt.mpr hq) hnopair
  have hfind : findBooking dbB db.nextBookingId user
      = some ⟨db.nextBookingId, user, eid, q, BookingStatus.confirmed⟩ := by
    rw [hdbB]
    exact findBooking_append_fresh db.bookings
      ⟨db.nextBookingId, user, eid, q, BookingStatus.confirmed⟩ (fun b hb => hfresh b hb)
  have hlookB : lookupEvent dbB eid
      = some { seat_count := ev.seat_count, available_seats := ev.available_seats - q,
               version := ev.version + 1 } := by
    rw [hdbB]
    exact lookupEvent_setEvent_self db eid ev _ hev
  have hcancel : cancel_booking (fun d => d) dbB db.nextBookingId user
      = (setBookingCancelled (setEvent dbB eid
            { seat_count := ev.seat_count, available_seats := ev.available_seats - q + q,
              version := ev.version + 1 + 1 }) db.nextBookingId,
         Except.ok ⟨db.nextBookingId, user, eid, q, BookingStatus.cancelled⟩) :=
    cancel_booking_success dbB ⟨db.nextBookingId, user, eid, q, BookingStatus.confirmed⟩
      { seat_count := ev.seat_count, available_seats := ev.available_seats - q,
        version := ev.version + 1 } hfind rfl hlookB
  refine ⟨⟨db.nextBookingId, user, eid, q, BookingStatus.confirmed⟩, ?_, ?_, ?_⟩
  · rw [hrun]
  · rw [hrun]
    exact congrArg Prod.snd hcancel
  · rw [hrun]
    refine Eq.trans (congrArg (fun d => lookupEvent d eid) (congrArg Prod.fst hcancel)) ?_
    refine Eq.trans (lookupEvent_setEvent_self dbB eid
      { seat_count := ev.seat_count, available_seats := ev.available_seats - q,
        version := ev.version + 1 }
      { seat_count := ev.seat_count, available_seats := ev.available_seats - q + q,
        version := ev.version + 1 + 1 } hlookB) ?_
    have h4 : ev.available_seats - q + q = ev.available_seats := by ring
    have h5 : ev.version + 1 + 1 = ev.version + 2 := by omega
    rw [h4, h5]


/-- Witness for `reserve_then_release_restores`: booking 2 of 100
seats and cancelling returns the event to 100 seats at version 3. -/
theorem reserve_then_release_restores_witness :
    ∃ bk : Booking,
      (book_seats noInterference 7 1 2 demoDB).2.2 = Except.ok bk ∧
      (cancel_booking (fun d => d) (book_seats noInterference 7 1 2 demoDB).1 bk.id 7).2
        = Except.ok { bk with status := BookingStatus.cancelled } ∧
      lookupEvent (cancel_booking (fun d => d)
          (book_seats noInterference 7 1 2 demoDB).1 bk.id 7).1 1
        = some { seat_count := 100, available_seats := 100, version := 3 } :=
  reserve_then_release_restores 7 1 2 demoDB
    { seat_count := 100, available_seats := 100, version := 1 }
    (by decide) (by decide) (by decide) (by decide)

end BookingSystem
